import Mathlib

/-!
# fiberzerolog: the request-logging middleware of `logger.go`

A shallow embedding of the handler returned by `New` (src/logger.go, lines 12-100).

The handler is sequential code over one request context. Its collaborators (the rest of the
handler chain, the centralized error handler, the identifier generator, the clock, the logger
builder and the log sink) are outside the file; each call to one of them is recorded as an
`Event` in a trace, and the ones whose result the handler reads are fields of `Env`.
A call to a collaborator is taken to return, with one exception: the sink's `Msg` does not
return for a record started by `Fatal` (it calls `os.Exit(1)`) or by `Panic` (it panics), both
after the record is written; these are the outcomes `Outcome.exited` and
`Outcome.sinkPanicked`. Go's run-time failure of a slice index that is out of range is the
outcome `Outcome.panicked`.
-/

namespace Fiberzerolog

/-! ## Data model -/

/-- zerolog.Level: a signed machine integer (int8 in the sink's package). -/
abbrev Level := Int

/-- Modelled from the spec: the nine named severity constants of the log sink (package zerolog,
not under src/). The spec names seven levels (trace, debug, info, warn, error, fatal, panic) and
the two sentinels "no level" and "disabled"; they carry the sink's integer values, of which the
proofs use only that they are pairwise different. -/
def DebugLevel : Level := 0

/-- Modelled from the spec: see `DebugLevel`. -/
def InfoLevel : Level := 1

/-- Modelled from the spec: see `DebugLevel`. -/
def WarnLevel : Level := 2

/-- Modelled from the spec: see `DebugLevel`. -/
def ErrorLevel : Level := 3

/-- Modelled from the spec: see `DebugLevel`. -/
def FatalLevel : Level := 4

/-- Modelled from the spec: see `DebugLevel`. -/
def PanicLevel : Level := 5

/-- Modelled from the spec: see `DebugLevel`. -/
def NoLevel : Level := 6

/-- Modelled from the spec: see `DebugLevel`. -/
def Disabled : Level := 7

/-- Modelled from the spec: see `DebugLevel`. -/
def TraceLevel : Level := -1

/-- A non-nil Go `error` value; the nil error is `Option.none`. -/
abbrev Err := String

/-- The value returned by `uuid.New()`. -/
abbrev UUID := Nat

/-- The part of `*fiber.Ctx` the handler reads or writes: the request path, the response status
code, the response headers and the user context. -/
structure Ctx where
  path : String
  status : Int
  headers : List (String × String)
  userContext : Nat
deriving DecidableEq, Repr

/-- `c.Set(key, val)`: sets the response header `key`, replacing an earlier value. -/
def Ctx.Set (c : Ctx) (key val : String) : Ctx :=
  { c with headers := (key, val) :: c.headers.filter (fun kv => kv.1 ≠ key) }

/-- `c.SendStatus(status)`: sets the response status code. -/
def Ctx.SendStatus (c : Ctx) (status : Int) : Ctx :=
  { c with status := status }

/-- `fiber.StatusInternalServerError`. -/
def StatusInternalServerError : Int := 500

/-- The fields of `Config` the handler reads (after `configDefault`). `Next = none` is the nil
function value. -/
structure Config where
  Next : Option (Ctx → Bool)
  SkipURIs : List String
  Levels : List Level
  Messages : List String

/-- The collaborators of one request, as the handler observes them. -/
structure Env where
  /-- `c.Next()`: the rest of the handler chain; it may change the context and returns an
  error or nil. -/
  next : Ctx → Ctx × Option Err
  /-- `c.App().ErrorHandler(c, err)`. -/
  errorHandler : Ctx → Err → Ctx × Option Err
  /-- The identifier `uuid.New()` returns for this request. -/
  uuid : UUID
  /-- `UUID.String()`. -/
  uuidString : UUID → String
  /-- `time.Now()` at line 34. -/
  start : Int
  /-- The clock when `time.Since(start)` is evaluated at line 48. -/
  stop : Int

/-- The emitting methods of `zerolog.Logger` called in the final switch. -/
inductive Method
  | Debug | Info | Warn | Error | Fatal | Panic | Trace
deriving DecidableEq, Repr

/-- The level at which each method of the logger writes its record. -/
def Method.level : Method → Level
  | .Debug => DebugLevel
  | .Info => InfoLevel
  | .Warn => WarnLevel
  | .Error => ErrorLevel
  | .Fatal => FatalLevel
  | .Panic => PanicLevel
  | .Trace => TraceLevel

/-- The calls the handler makes to its collaborators, in the order it makes them. -/
inductive Event
  /-- `cfg.Next(c)` was evaluated with result `b` (line 25). -/
  | evalNext (c : Ctx) (b : Bool)
  /-- `skipURIs[path]` was looked up with result `ok` (line 30). -/
  | skipLookup (path : String) (ok : Bool)
  /-- `c.Set(key, val)` (line 37). -/
  | set (key val : String)
  /-- `c.Next()` was called on the context `c` (lines 26, 31, 40). -/
  | next (c : Ctx)
  /-- `c.App().ErrorHandler(c, err)` (line 43). -/
  | errorHandler (c : Ctx) (err : Err)
  /-- `c.SendStatus(code)` (line 44). -/
  | sendStatus (code : Int)
  /-- `cfg.logger(c, latency, chainErr)` (line 79). -/
  | logger (c : Ctx) (latency : Int) (chainErr : Option Err)
  /-- `logger.M().Ctx(ctx).Any("errorTraceId", id).Msg(message)` (lines 83-96). -/
  | emit (m : Method) (ctx : Nat) (errorTraceId : UUID) (message : String)
deriving DecidableEq, Repr

/-- Whether the event is a call of the next handler. -/
def Event.isNext : Event → Bool
  | .next _ => true
  | _ => false

/-- Whether the event sets a response header. -/
def Event.isSet : Event → Bool
  | .set _ _ => true
  | _ => false

/-- Whether the event is a call of the centralized error handler. -/
def Event.isErrorHandler : Event → Bool
  | .errorHandler _ _ => true
  | _ => false

/-- Whether the event sets the response status. -/
def Event.isSendStatus : Event → Bool
  | .sendStatus _ => true
  | _ => false

/-- Whether the event is a call of the logger builder. -/
def Event.isLogger : Event → Bool
  | .logger _ _ _ => true
  | _ => false

/-- Whether the event is an emitted log record. -/
def Event.isEmit : Event → Bool
  | .emit _ _ _ _ => true
  | _ => false

/-- Whether the event is the skip-path test. -/
def Event.isSkipLookup : Event → Bool
  | .skipLookup _ _ => true
  | _ => false

/-- How an invocation of the handler ends: it returns an error value (nil is `none`); or a
slice index is out of range and the goroutine panics; or the sink's `Msg` panics after a record
started by `Panic`; or the sink's `Msg` ends the process after a record started by `Fatal`. -/
inductive Outcome
  | returned (err : Option Err)
  | panicked
  | sinkPanicked
  | exited
deriving DecidableEq, Repr

/-- What `Msg` does once the record is written (lines 91-94): for a record started by `Fatal` it
calls `os.Exit(1)`, for one started by `Panic` it panics; `none` when it returns to the
handler. -/
def Method.stops : Method → Option Outcome
  | .Fatal => some .exited
  | .Panic => some .sinkPanicked
  | _ => none

/-- The observable result of one invocation: the final context, the calls made, the outcome. -/
structure Result where
  ctx : Ctx
  trace : List Event
  out : Outcome
deriving DecidableEq, Repr

/-! ## The handler -/

/-- Lines 17-20: the map `skipURIs`, as its membership test. Each entry of `cfg.SkipURIs` is
inserted as a key. -/
def mkSkipURIs (uris : List String) : String → Bool :=
  uris.foldl (fun m uri => fun k => if k = uri then true else m k) (fun _ => false)

/-- Go's `xs[i]` for an `int` index: `none` stands for the run-time panic when the index is
negative or not below `len(xs)`. -/
def sliceAt {α : Type} (xs : List α) (i : Int) : Option α :=
  if i < 0 then none else xs[i.toNat]?

/-- Lines 52-60: the class index of a final response status. -/
def statusIndex (status : Int) : Int :=
  if status ≥ 500 then 0
  else if status ≥ 400 then 1
  else 2

/-- Lines 62-65 and 73-76: the index after the length test. -/
def clampIndex (index : Int) (len : Nat) : Int :=
  if index ≥ (len : Int) then (len : Int) - 1 else index

/-- Lines 62-66: `cfg.Levels[levelIndex]`. -/
def selectLevel (cfg : Config) (index : Int) : Option Level :=
  let levelIndex := clampIndex index cfg.Levels.length
  sliceAt cfg.Levels levelIndex

/-- Lines 73-77: `cfg.Messages[messageIndex]`. -/
def selectMessage (cfg : Config) (index : Int) : Option String :=
  let messageIndex := clampIndex index cfg.Messages.length
  sliceAt cfg.Messages messageIndex

/-- Lines 82-97: the switch on `level`; `none` is the absent default branch. -/
def dispatch (level : Level) : Option Method :=
  if level = DebugLevel then some .Debug
  else if level = InfoLevel then some .Info
  else if level = WarnLevel then some .Warn
  else if level = ErrorLevel then some .Error
  else if level = FatalLevel then some .Fatal
  else if level = PanicLevel then some .Panic
  else if level = TraceLevel then some .Trace
  else none

/-- Lines 26 and 31: `return c.Next()`, after the calls `t` made so far. -/
def passThrough (env : Env) (c : Ctx) (t : List Event) : Result :=
  let r := env.next c
  { ctx := r.1, trace := t ++ [.next c], out := .returned r.2 }

/-- Lines 34-46: the header is set, the next handler runs, and its error, if any, goes to the
centralized error handler. Returns the context, the trace and `chainErr`. -/
def delegate (env : Env) (c : Ctx) (t : List Event) : Ctx × List Event × Option Err :=
  let errorTraceID := env.uuid
  let c1 := c.Set "errorTraceID" (env.uuidString errorTraceID)
  let t1 := t ++ [.set "errorTraceID" (env.uuidString errorTraceID)]
  let r := env.next c1
  let chainErr := r.2
  let t2 := t1 ++ [.next c1]
  match chainErr with
  | none => (r.1, t2, chainErr)
  | some e =>
    let h := env.errorHandler r.1 e
    let t3 := t2 ++ [.errorHandler r.1 e]
    match h.2 with
    | none => (h.1, t3, chainErr)
    | some _ =>
      (h.1.SendStatus StatusInternalServerError, t3 ++ [.sendStatus StatusInternalServerError],
        chainErr)

/-- Lines 48-99: classification of the final status, selection of level and message, and
emission. -/
def logRequest (cfg : Config) (env : Env) (c : Ctx) (t : List Event) (chainErr : Option Err) :
    Result :=
  let latency := env.stop - env.start
  let status := c.status
  let index := statusIndex status
  match selectLevel cfg index with
  | none => { ctx := c, trace := t, out := .panicked }
  | some level =>
    if level = NoLevel ∨ level = Disabled then
      { ctx := c, trace := t, out := .returned none }
    else
      match selectMessage cfg index with
      | none => { ctx := c, trace := t, out := .panicked }
      | some message =>
        let t1 := t ++ [.logger c latency chainErr]
        let ctx := c.userContext
        match dispatch level with
        | some m =>
          { ctx := c, trace := t1 ++ [.emit m ctx env.uuid message],
            out := match m.stops with
              | some o => o
              | none => .returned none }
        | none => { ctx := c, trace := t1, out := .returned none }

/-- Lines 12-100: the handler `New` returns, run on one request context `c` with the
collaborators `env`. -/
def New (cfg : Config) : Env → Ctx → Result :=
  let skipURIs := mkSkipURIs cfg.SkipURIs
  fun env c =>
    match cfg.Next with
    | some p =>
      if p c then passThrough env c [.evalNext c true]
      else
        let ok := skipURIs c.path
        if ok then passThrough env c [.evalNext c false, .skipLookup c.path ok]
        else
          let d := delegate env c [.evalNext c false, .skipLookup c.path ok]
          logRequest cfg env d.1 d.2.1 d.2.2
    | none =>
      let ok := skipURIs c.path
      if ok then passThrough env c [.skipLookup c.path ok]
      else
        let d := delegate env c [.skipLookup c.path ok]
        logRequest cfg env d.1 d.2.1 d.2.2

/-! ## Vocabulary of the statements -/

/-- Whether the request is short-circuited: the bypass predicate is configured and true, or the
path is an entry of the skip list. -/
def shortCircuited (cfg : Config) (c : Ctx) : Prop :=
  (∃ p, cfg.Next = some p ∧ p c = true) ∨ c.path ∈ cfg.SkipURIs

/-- The context on which the next handler runs for a request that is not short-circuited. -/
def withTraceHeader (env : Env) (c : Ctx) : Ctx :=
  c.Set "errorTraceID" (env.uuidString env.uuid)

/-- The final status a request that is not short-circuited is classified by. -/
def finalStatus (env : Env) (c : Ctx) : Int :=
  (delegate env c []).1.status

/-- The calls made before the request is either passed through or delegated (lines 25-30). -/
def preamble (cfg : Config) (c : Ctx) : List Event :=
  match cfg.Next with
  | some p =>
    if p c then [.evalNext c true]
    else [.evalNext c false, .skipLookup c.path (mkSkipURIs cfg.SkipURIs c.path)]
  | none => [.skipLookup c.path (mkSkipURIs cfg.SkipURIs c.path)]

/-- The calls lines 37-45 make on the request context `c`. -/
def delegateEvents (env : Env) (c : Ctx) : List Event :=
  let r := env.next (withTraceHeader env c)
  [.set "errorTraceID" (env.uuidString env.uuid), .next (withTraceHeader env c)] ++
    (match r.2 with
     | none => []
     | some e =>
       .errorHandler r.1 e ::
         (match (env.errorHandler r.1 e).2 with
          | none => []
          | some _ => [.sendStatus StatusInternalServerError]))

/-- The calls lines 79-96 make. -/
def logEvents (cfg : Config) (env : Env) (c : Ctx) (chainErr : Option Err) : List Event :=
  (logRequest cfg env c [] chainErr).trace

/-- The calls lines 79-96 make once the level and the message are selected. -/
def recordEvents (env : Env) (c : Ctx) (chainErr : Option Err) (level : Level)
    (message : String) : List Event :=
  if level = NoLevel ∨ level = Disabled then []
  else
    .logger c (env.stop - env.start) chainErr ::
      (match dispatch level with
       | some m => [.emit m c.userContext env.uuid message]
       | none => [])

/-- How lines 79-99 end once the level and the message are selected. -/
def recordOut (level : Level) : Outcome :=
  if level = NoLevel ∨ level = Disabled then .returned none
  else
    match dispatch level with
    | some m =>
      (match m.stops with
       | some o => o
       | none => .returned none)
    | none => .returned none

/-! ## Concrete configurations, collaborators and requests -/

/-- A run with the default lists: the next handler succeeds. -/
def okEnv : Env :=
  { next := fun c => (c, none)
    errorHandler := fun c _ => (c, none)
    uuid := 7
    uuidString := fun _ => "00000000-0000-4000-8000-000000000007"
    start := 0
    stop := 5 }

/-- A run in which the next handler and the centralized error handler both return an error. -/
def failingEnv : Env :=
  { next := fun c => (c, some "boom")
    errorHandler := fun c _ => (c, some "no translation")
    uuid := 9
    uuidString := fun _ => "00000000-0000-4000-8000-000000000009"
    start := 0
    stop := 5 }

/-- The default lists of levels and messages, with `/health` skipped. -/
def defaultCfg : Config :=
  { Next := none
    SkipURIs := ["/health"]
    Levels := [ErrorLevel, WarnLevel, InfoLevel]
    Messages := ["Server error", "Client error", "Success"] }

/-- A configuration whose `Levels` is the empty (non-nil) slice. -/
def noLevelsCfg : Config :=
  { Next := none
    SkipURIs := []
    Levels := []
    Messages := ["Server error", "Client error", "Success"] }

/-- A configuration whose `Messages` is the empty (non-nil) slice. -/
def noMessagesCfg : Config :=
  { Next := none
    SkipURIs := []
    Levels := [InfoLevel]
    Messages := [] }

/-- A configuration that logs server errors at the fatal level. -/
def fatalCfg : Config :=
  { Next := none
    SkipURIs := []
    Levels := [FatalLevel, WarnLevel, InfoLevel]
    Messages := ["Server error", "Client error", "Success"] }

/-- A configuration that logs every request at the panic level. -/
def panicCfg : Config :=
  { Next := none
    SkipURIs := []
    Levels := [PanicLevel]
    Messages := ["request"] }

/-- A configuration whose only level is the sentinel `Disabled`. -/
def disabledCfg : Config :=
  { Next := none
    SkipURIs := []
    Levels := [Disabled]
    Messages := ["request"] }

/-- A request for `/health`. -/
def healthReq : Ctx := { path := "/health", status := 200, headers := [], userContext := 0 }

/-- A request for `/orders`. -/
def ordersReq : Ctx := { path := "/orders", status := 200, headers := [], userContext := 0 }

/-- A configuration with a single level and a single message. -/
def oneLevelCfg : Config :=
  { Next := some (fun c => c.path = "/metrics")
    SkipURIs := []
    Levels := [WarnLevel]
    Messages := ["request"] }

/-- A request for `/metrics`. -/
def metricsReq : Ctx := { path := "/metrics", status := 200, headers := [], userContext := 0 }

/-! ## Basic facts -/

theorem mkSkipURIs_foldl (uris : List String) (m : String → Bool) (k : String) :
    (uris.foldl (fun m uri => fun k => if k = uri then true else m k) m) k
      = (decide (k ∈ uris) || m k) := by
  induction uris generalizing m with
  | nil => simp
  | cons u us ih =>
    simp only [List.foldl_cons, ih, List.mem_cons]
    by_cases hk : k = u <;> by_cases hm : k ∈ us <;> simp [hk, hm]

theorem mkSkipURIs_eq_true_iff (uris : List String) (k : String) :
    mkSkipURIs uris k = true ↔ k ∈ uris := by
  unfold mkSkipURIs
  rw [mkSkipURIs_foldl]
  simp

theorem mkSkipURIs_eq_false_iff (uris : List String) (k : String) :
    mkSkipURIs uris k = false ↔ k ∉ uris := by
  unfold mkSkipURIs
  rw [mkSkipURIs_foldl]
  simp

theorem delegate_ctx (env : Env) (c : Ctx) (t : List Event) :
    (delegate env c t).1 = (delegate env c []).1 := by
  unfold delegate
  simp only
  split
  · rfl
  · split <;> rfl

theorem delegate_chainErr (env : Env) (c : Ctx) (t : List Event) :
    (delegate env c t).2.2 = (env.next (withTraceHeader env c)).2 := by
  unfold delegate withTraceHeader
  simp only
  split
  · simp_all
  · split <;> simp_all

theorem delegate_trace (env : Env) (c : Ctx) (t : List Event) :
    (delegate env c t).2.1 = t ++ delegateEvents env c := by
  unfold delegate delegateEvents withTraceHeader
  simp only
  split
  · rename_i h; simp [h]
  · rename_i e h
    split
    · rename_i h2; simp [h, h2]
    · rename_i e2 h2; simp [h, h2]

theorem New_of_shortCircuited (cfg : Config) (env : Env) (c : Ctx)
    (h : shortCircuited cfg c) :
    New cfg env c = passThrough env c (preamble cfg c) := by
  have hs : ∀ p, cfg.Next = some p → p c = false → mkSkipURIs cfg.SkipURIs c.path = true := by
    intro p hp hpc
    rcases h with ⟨q, hq, hqc⟩ | hm
    · rw [hp] at hq; cases hq; rw [hpc] at hqc; cases hqc
    · exact (mkSkipURIs_eq_true_iff _ _).2 hm
  unfold New preamble
  simp only
  cases hN : cfg.Next with
  | some p =>
    by_cases hpc : p c = true
    · simp [hpc]
    · have hpc2 : p c = false := by simpa using hpc
      simp [hpc2, hs p hN hpc2]
  | none =>
    have hm : mkSkipURIs cfg.SkipURIs c.path = true := by
      rcases h with ⟨q, hq, _⟩ | hm
      · rw [hN] at hq; cases hq
      · exact (mkSkipURIs_eq_true_iff _ _).2 hm
    simp [hm]

theorem New_of_not_shortCircuited (cfg : Config) (env : Env) (c : Ctx)
    (h : ¬ shortCircuited cfg c) :
    New cfg env c
      = logRequest cfg env (delegate env c []).1 (preamble cfg c ++ delegateEvents env c)
          (env.next (withTraceHeader env c)).2 := by
  have hm : mkSkipURIs cfg.SkipURIs c.path = false := by
    rw [mkSkipURIs_eq_false_iff]
    exact fun hmem => h (Or.inr hmem)
  unfold New preamble
  simp only
  cases hN : cfg.Next with
  | some p =>
    have hpc : p c = false := by
      by_contra hc
      exact h (Or.inl ⟨p, hN, by simpa using hc⟩)
    simp only [hpc, hm, Bool.false_eq_true, if_false]
    rw [delegate_ctx, delegate_trace, delegate_chainErr]
  | none =>
    simp only [hm, Bool.false_eq_true, if_false]
    rw [delegate_ctx, delegate_trace, delegate_chainErr]

theorem sliceAt_clampIndex {α : Type} (xs : List α) (i : Nat) (hx : xs ≠ []) :
    sliceAt xs (clampIndex i xs.length) = xs[min i (xs.length - 1)]? := by
  have hlen : 0 < xs.length := List.length_pos.2 hx
  unfold sliceAt clampIndex
  by_cases hi : (i : Int) ≥ (xs.length : Int)
  · have h1 : ¬ ((xs.length : Int) - 1 < 0) := by omega
    have h2 : ((xs.length : Int) - 1).toNat = xs.length - 1 := by omega
    have h3 : min i (xs.length - 1) = xs.length - 1 := by omega
    simp only [hi, if_true, h1, if_false, h2, h3]
  · have h1 : ¬ ((i : Int) < 0) := by omega
    have h3 : min i (xs.length - 1) = i := by omega
    simp only [hi, if_false, h1, h3, Int.toNat_ofNat]

theorem sliceAt_clampIndex_nil {α : Type} (i : Nat) :
    sliceAt ([] : List α) (clampIndex i 0) = none := by
  unfold sliceAt clampIndex
  have h : (i : Int) ≥ ((0 : Nat) : Int) := by omega
  simp [h]

theorem statusIndex_cases (s : Int) :
    statusIndex s = 0 ∨ statusIndex s = 1 ∨ statusIndex s = 2 := by
  unfold statusIndex
  split
  · exact Or.inl rfl
  · split
    · exact Or.inr (Or.inl rfl)
    · exact Or.inr (Or.inr rfl)

theorem statusIndex_eq_natCast (s : Int) : ∃ i : Nat, i ≤ 2 ∧ statusIndex s = (i : Int) := by
  rcases statusIndex_cases s with h | h | h
  · exact ⟨0, by omega, by simp [h]⟩
  · exact ⟨1, by omega, by simp [h]⟩
  · exact ⟨2, by omega, by simp [h]⟩

theorem selectLevel_isSome (cfg : Config) (s : Int) (hL : cfg.Levels ≠ []) :
    ∃ level, selectLevel cfg (statusIndex s) = some level := by
  obtain ⟨i, _, hi⟩ := statusIndex_eq_natCast s
  have hlen : 0 < cfg.Levels.length := List.length_pos.2 hL
  have hlt : min i (cfg.Levels.length - 1) < cfg.Levels.length := by omega
  refine ⟨cfg.Levels.get ⟨_, hlt⟩, ?_⟩
  unfold selectLevel
  simp only
  rw [hi, sliceAt_clampIndex _ _ hL]
  exact List.getElem?_eq_getElem hlt

theorem selectMessage_isSome (cfg : Config) (s : Int) (hM : cfg.Messages ≠ []) :
    ∃ message, selectMessage cfg (statusIndex s) = some message := by
  obtain ⟨i, _, hi⟩ := statusIndex_eq_natCast s
  have hlen : 0 < cfg.Messages.length := List.length_pos.2 hM
  have hlt : min i (cfg.Messages.length - 1) < cfg.Messages.length := by omega
  refine ⟨cfg.Messages.get ⟨_, hlt⟩, ?_⟩
  unfold selectMessage
  simp only
  rw [hi, sliceAt_clampIndex _ _ hM]
  exact List.getElem?_eq_getElem hlt

theorem logRequest_ctx (cfg : Config) (env : Env) (c : Ctx) (t : List Event)
    (chainErr : Option Err) : (logRequest cfg env c t chainErr).ctx = c := by
  unfold logRequest
  simp only
  split
  · rfl
  · split
    · rfl
    · split
      · rfl
      · split <;> rfl

theorem logRequest_trace (cfg : Config) (env : Env) (c : Ctx) (t : List Event)
    (chainErr : Option Err) :
    (logRequest cfg env c t chainErr).trace = t ++ logEvents cfg env c chainErr := by
  unfold logEvents logRequest
  simp only
  split
  · simp
  · split
    · simp
    · split
      · simp
      · split <;> simp

theorem logRequest_out (cfg : Config) (env : Env) (c : Ctx) (t : List Event)
    (chainErr : Option Err) :
    (logRequest cfg env c t chainErr).out = (logRequest cfg env c [] chainErr).out := by
  unfold logRequest
  simp only
  split
  · rfl
  · split
    · rfl
    · split
      · rfl
      · split <;> rfl

theorem logEvents_mem (cfg : Config) (env : Env) (c : Ctx) (chainErr : Option Err) (ev : Event)
    (h : ev ∈ logEvents cfg env c chainErr) :
    ev = .logger c (env.stop - env.start) chainErr ∨
      ∃ m message, ev = .emit m c.userContext env.uuid message := by
  unfold logEvents logRequest at h
  simp only at h
  split at h
  · simp at h
  · split at h
    · simp at h
    · split at h
      · simp at h
      · split at h
        · simp only [List.nil_append, List.cons_append, List.mem_cons, List.mem_singleton,
            List.not_mem_nil, or_false] at h
          rcases h with h | h
          · exact Or.inl h
          · exact Or.inr ⟨_, _, h⟩
        · simp only [List.nil_append, List.mem_singleton] at h
          exact Or.inl h

theorem preamble_filter (cfg : Config) (c : Ctx) (p : Event → Bool)
    (h1 : ∀ c b, p (.evalNext c b) = false) (h2 : ∀ s b, p (.skipLookup s b) = false) :
    (preamble cfg c).filter p = [] := by
  unfold preamble
  split
  · split <;> simp [List.filter_cons, h1, h2]
  · simp [List.filter_cons, h2]

theorem logEvents_filter (cfg : Config) (env : Env) (c : Ctx) (chainErr : Option Err)
    (p : Event → Bool) (h1 : ∀ c l e, p (.logger c l e) = false)
    (h2 : ∀ m x i s, p (.emit m x i s) = false) :
    (logEvents cfg env c chainErr).filter p = [] := by
  rw [List.filter_eq_nil_iff]
  intro ev hev
  rcases logEvents_mem cfg env c chainErr ev hev with h | ⟨m, message, h⟩
  · simp [h, h1]
  · simp [h, h2]

theorem New_trace_of_not_shortCircuited (cfg : Config) (env : Env) (c : Ctx)
    (h : ¬ shortCircuited cfg c) :
    (New cfg env c).trace
      = preamble cfg c ++ delegateEvents env c
          ++ logEvents cfg env (delegate env c []).1 (env.next (withTraceHeader env c)).2 := by
  rw [New_of_not_shortCircuited cfg env c h, logRequest_trace]

theorem New_ctx_of_not_shortCircuited (cfg : Config) (env : Env) (c : Ctx)
    (h : ¬ shortCircuited cfg c) :
    (New cfg env c).ctx = (delegate env c []).1 := by
  rw [New_of_not_shortCircuited cfg env c h, logRequest_ctx]

theorem dispatch_level (level : Level) (m : Method) (h : dispatch level = some m) :
    m.level = level := by
  unfold dispatch at h
  repeat' split at h
  all_goals first
    | (cases h; simp_all [Method.level])
    | cases h

theorem dispatch_isSome_iff (level : Level) :
    (∃ m, dispatch level = some m) ↔
      (level = TraceLevel ∨ level = DebugLevel ∨ level = InfoLevel ∨ level = WarnLevel ∨
        level = ErrorLevel ∨ level = FatalLevel ∨ level = PanicLevel) := by
  unfold dispatch
  constructor
  · intro ⟨m, h⟩
    repeat' split at h
    all_goals first
      | (cases h; simp_all)
      | cases h
  · intro h
    rcases h with h | h | h | h | h | h | h <;> subst h
    · exact ⟨.Trace, by decide⟩
    · exact ⟨.Debug, by decide⟩
    · exact ⟨.Info, by decide⟩
    · exact ⟨.Warn, by decide⟩
    · exact ⟨.Error, by decide⟩
    · exact ⟨.Fatal, by decide⟩
    · exact ⟨.Panic, by decide⟩

theorem logRequest_eq (cfg : Config) (env : Env) (c : Ctx) (t : List Event)
    (chainErr : Option Err) (level : Level) (message : String)
    (hl : selectLevel cfg (statusIndex c.status) = some level)
    (hm : selectMessage cfg (statusIndex c.status) = some message) :
    logRequest cfg env c t chainErr
      = { ctx := c, trace := t ++ recordEvents env c chainErr level message,
          out := recordOut level } := by
  unfold logRequest recordEvents recordOut
  simp only [hl, hm]
  by_cases hs : level = NoLevel ∨ level = Disabled
  · simp [hs]
  · simp only [hs, if_false]
    cases hd : dispatch level <;> simp

theorem logEvents_emit (cfg : Config) (env : Env) (c : Ctx) (chainErr : Option Err)
    (m : Method) (x : Nat) (id : UUID) (message : String)
    (h : Event.emit m x id message ∈ logEvents cfg env c chainErr) :
    ∃ level, selectLevel cfg (statusIndex c.status) = some level ∧ dispatch level = some m ∧
      selectMessage cfg (statusIndex c.status) = some message ∧ id = env.uuid := by
  unfold logEvents logRequest at h
  simp only at h
  split at h
  · simp at h
  · rename_i level hl
    split at h
    · simp at h
    · split at h
      · simp at h
      · rename_i msg hm
        split at h
        · rename_i m2 hd
          simp only [List.nil_append, List.cons_append, List.mem_cons, List.mem_singleton,
            List.not_mem_nil, or_false, reduceCtorEq, false_or, Event.emit.injEq] at h
          obtain ⟨h1, _, h3, h4⟩ := h
          subst h1 h3 h4
          exact ⟨level, hl, hd, hm, rfl⟩
        · simp at h

theorem delegateEvents_filter_emit (env : Env) (c : Ctx) (p : Event → Bool)
    (h1 : ∀ k v, p (.set k v) = false) (h2 : ∀ c, p (.next c) = false)
    (h3 : ∀ c e, p (.errorHandler c e) = false) (h4 : ∀ n, p (.sendStatus n) = false) :
    (delegateEvents env c).filter p = [] := by
  unfold delegateEvents
  simp only
  split
  · simp [List.filter_cons, h1, h2]
  · split <;> simp [List.filter_cons, h1, h2, h3, h4]

theorem getElem?_min_zero {α : Type} (xs : List α) (hx : xs ≠ []) :
    xs[min 0 (xs.length - 1)]? = some (xs.head hx) := by
  cases xs with
  | nil => exact absurd rfl hx
  | cons x xs => simp

theorem delegate_ctx_of_nil (env : Env) (c : Ctx)
    (hn : (env.next (withTraceHeader env c)).2 = none) :
    (delegate env c []).1 = (env.next (withTraceHeader env c)).1 := by
  unfold withTraceHeader at hn
  unfold delegate withTraceHeader
  simp only
  split
  · rfl
  · rename_i e he
    rw [hn] at he
    cases he

theorem delegate_status_of_failure (env : Env) (c : Ctx) (e e2 : Err)
    (hn : (env.next (withTraceHeader env c)).2 = some e)
    (he : (env.errorHandler (env.next (withTraceHeader env c)).1 e).2 = some e2) :
    (delegate env c []).1.status = 500 := by
  unfold withTraceHeader at hn he
  unfold delegate
  simp only
  split
  · rename_i h
    rw [hn] at h
    cases h
  · rename_i e3 h3
    rw [hn] at h3
    cases h3
    split
    · rename_i h4
      rw [he] at h4
      cases h4
    · rfl

theorem sendStatus_mem_New (cfg : Config) (env : Env) (c : Ctx) (code : Int)
    (hmem : Event.sendStatus code ∈ (New cfg env c).trace) : code = 500 := by
  by_cases hsc : shortCircuited cfg c
  · exfalso
    rw [New_of_shortCircuited cfg env c hsc] at hmem
    unfold passThrough at hmem
    simp only [List.mem_append, List.mem_singleton, reduceCtorEq, or_false] at hmem
    have := preamble_filter cfg c Event.isSendStatus (fun _ _ => rfl) (fun _ _ => rfl)
    rw [List.filter_eq_nil_iff] at this
    exact this _ hmem rfl
  · rw [New_trace_of_not_shortCircuited cfg env c hsc] at hmem
    rcases List.mem_append.1 hmem with h1 | h1
    · rcases List.mem_append.1 h1 with h2 | h2
      · exfalso
        have := preamble_filter cfg c Event.isSendStatus (fun _ _ => rfl) (fun _ _ => rfl)
        rw [List.filter_eq_nil_iff] at this
        exact this _ h2 rfl
      · unfold delegateEvents at h2
        simp only [List.cons_append, List.nil_append, List.mem_cons, reduceCtorEq,
          false_or] at h2
        split at h2
        · simp at h2
        · split at h2
          · simp at h2
          · simp only [List.mem_cons, reduceCtorEq, false_or, List.mem_singleton,
              Event.sendStatus.injEq, List.not_mem_nil, or_false] at h2
            rw [h2]
            rfl
    · exfalso
      have := logEvents_filter cfg env (delegate env c []).1
        (env.next (withTraceHeader env c)).2 Event.isSendStatus (fun _ _ _ => rfl)
        (fun _ _ _ _ => rfl)
      rw [List.filter_eq_nil_iff] at this
      exact this _ h1 rfl

theorem not_shortCircuited_of_none (cfg : Config) (c : Ctx) (hN : cfg.Next = none)
    (hp : c.path ∉ cfg.SkipURIs) : ¬ shortCircuited cfg c := by
  rintro (⟨p, hq, _⟩ | hm)
  · rw [hN] at hq; cases hq
  · exact hp hm

theorem ordersReq_not_shortCircuited : ¬ shortCircuited defaultCfg ordersReq :=
  not_shortCircuited_of_none _ _ rfl (by decide)

/-! ## The handler on configurations with non-empty lists -/

theorem New_of_selected (cfg : Config) (env : Env) (c : Ctx) (level : Level)
    (message : String) (h : ¬ shortCircuited cfg c)
    (hl : selectLevel cfg (statusIndex (finalStatus env c)) = some level)
    (hm : selectMessage cfg (statusIndex (finalStatus env c)) = some message) :
    New cfg env c
      = { ctx := (delegate env c []).1,
          trace := preamble cfg c ++ delegateEvents env c
            ++ recordEvents env (delegate env c []).1 (env.next (withTraceHeader env c)).2
                level message,
          out := recordOut level } := by
  rw [New_of_not_shortCircuited cfg env c h]
  exact logRequest_eq cfg env _ _ _ level message hl hm

theorem recordOut_eq (level : Level) :
    recordOut level
      = (if level = FatalLevel then .exited
         else if level = PanicLevel then .sinkPanicked
         else .returned none) := by
  unfold recordOut dispatch
  by_cases h1 : level = FatalLevel
  · subst h1; decide
  · by_cases h2 : level = PanicLevel
    · subst h2; decide
    · simp only [h1, h2, if_false]
      split
      · rfl
      · split
        · rename_i m hm
          repeat' split at hm
          all_goals first
            | (cases hm; rfl)
            | cases hm
        · rfl

theorem recordOut_of_dispatch_none (level : Level) (h : dispatch level = none) :
    recordOut level = .returned none := by
  unfold recordOut
  simp [h]

theorem New_out_of_nonempty (cfg : Config) (env : Env) (c : Ctx)
    (h : ¬ shortCircuited cfg c) (hL : cfg.Levels ≠ []) (hM : cfg.Messages ≠ []) :
    ∃ level, selectLevel cfg (statusIndex (finalStatus env c)) = some level ∧
      (New cfg env c).out = recordOut level := by
  obtain ⟨level, hl⟩ := selectLevel_isSome cfg (finalStatus env c) hL
  obtain ⟨message, hm⟩ := selectMessage_isSome cfg (finalStatus env c) hM
  refine ⟨level, hl, ?_⟩
  rw [New_of_selected cfg env c level message h hl hm]

theorem getElem?_clamp_last {α : Type} (xs : List α) (i : Nat) (hx : xs ≠ [])
    (hi : xs.length ≤ i) : xs[min i (xs.length - 1)]? = some (xs.getLast hx) := by
  have h3 : min i (xs.length - 1) = xs.length - 1 := by omega
  rw [h3, List.getLast_eq_getElem]
  exact List.getElem?_eq_getElem _

/-! ## The claims -/

/-- C1: the class index the handler computes from the final response status `s` is 0 exactly
when `s ≥ 500`, 1 exactly when `400 ≤ s < 500`, and 2 otherwise, that is exactly when `s < 400`;
503 gives 0, 404 gives 1 and 200 gives 2. -/
theorem statusIndex_classification (s : Int) :
    statusIndex s = (if s ≥ 500 then 0 else if 400 ≤ s ∧ s < 500 then 1 else 2) ∧
    (statusIndex s = 0 ↔ 500 ≤ s) ∧
    (statusIndex s = 1 ↔ 400 ≤ s ∧ s < 500) ∧
    (statusIndex s = 2 ↔ s < 400) ∧
    statusIndex 503 = 0 ∧ statusIndex 404 = 1 ∧ statusIndex 200 = 2 := by
  refine ⟨?_, ?_, ?_, ?_, by decide, by decide, by decide⟩
  · unfold statusIndex
    by_cases h5 : s ≥ 500
    · simp [h5]
    · by_cases h4 : s ≥ 400
      · have : s < 500 := by omega
        simp [h5, h4, this]
      · simp [h5, h4]
  · unfold statusIndex
    by_cases h5 : s ≥ 500
    · simp [h5]
    · by_cases h4 : s ≥ 400
      · have : ¬ (500 ≤ s) := by omega
        simp [h5, h4, this]
      · have : ¬ (500 ≤ s) := by omega
        simp [h5, h4, this]
  · unfold statusIndex
    by_cases h5 : s ≥ 500
    · have : ¬ (s < 500) := by omega
      simp [h5, this]
    · by_cases h4 : s ≥ 400
      · have : s < 500 := by omega
        simp [h5, h4, this]
      · have : ¬ (400 ≤ s) := by omega
        simp [h5, h4, this]
  · unfold statusIndex
    by_cases h5 : s ≥ 500
    · have : ¬ (s < 400) := by omega
      simp [h5, this]
    · by_cases h4 : s ≥ 400
      · have : ¬ (s < 400) := by omega
        simp [h5, h4, this]
      · have : s < 400 := by omega
        simp [h5, h4, this]

/-- C2: with a non-empty list of levels and a non-empty list of messages, for each class index
`i` (every index from 0 on, so 0, 1 and 2) the level lookup succeeds with the entry at
`min i (len Levels - 1)` and the message lookup succeeds with the entry at
`min i (len Messages - 1)`, each bounded by its own list only; a one-entry list of levels gives
that entry for every class; and a record the handler emits for a request of class `i` carries
that level and that message. -/
theorem clamped_selection (cfg : Config) (i : Nat) (hL : cfg.Levels ≠ [])
    (hM : cfg.Messages ≠ []) :
    (∃ hl : min i (cfg.Levels.length - 1) < cfg.Levels.length,
      selectLevel cfg (i : Int) = some (cfg.Levels.get ⟨min i (cfg.Levels.length - 1), hl⟩)) ∧
    (∃ hm : min i (cfg.Messages.length - 1) < cfg.Messages.length,
      selectMessage cfg (i : Int)
        = some (cfg.Messages.get ⟨min i (cfg.Messages.length - 1), hm⟩)) ∧
    (∀ x, cfg.Levels = [x] → selectLevel cfg (i : Int) = some x) ∧
    (∀ env c, ¬ shortCircuited cfg c → statusIndex (finalStatus env c) = (i : Int) →
      ∀ m ctx id message, Event.emit m ctx id message ∈ (New cfg env c).trace →
        cfg.Levels[min i (cfg.Levels.length - 1)]? = some m.level ∧
        cfg.Messages[min i (cfg.Messages.length - 1)]? = some message) := by
  have hlenL : 0 < cfg.Levels.length := List.length_pos.2 hL
  have hlenM : 0 < cfg.Messages.length := List.length_pos.2 hM
  have hl : min i (cfg.Levels.length - 1) < cfg.Levels.length := by omega
  have hm : min i (cfg.Messages.length - 1) < cfg.Messages.length := by omega
  have eL : selectLevel cfg (i : Int) = cfg.Levels[min i (cfg.Levels.length - 1)]? := by
    unfold selectLevel
    simp only
    rw [sliceAt_clampIndex _ _ hL]
  have eM : selectMessage cfg (i : Int) = cfg.Messages[min i (cfg.Messages.length - 1)]? := by
    unfold selectMessage
    simp only
    rw [sliceAt_clampIndex _ _ hM]
  refine ⟨⟨hl, ?_⟩, ⟨hm, ?_⟩, ?_, ?_⟩
  · rw [eL]; exact List.getElem?_eq_getElem hl
  · rw [eM]; exact List.getElem?_eq_getElem hm
  · intro x hx
    rw [eL, hx]
    simp
  · intro env c hsc hidx m ctx id message hmem
    rw [New_trace_of_not_shortCircuited cfg env c hsc] at hmem
    have hmem2 : Event.emit m ctx id message
        ∈ logEvents cfg env (delegate env c []).1 (env.next (withTraceHeader env c)).2 := by
      rcases List.mem_append.1 hmem with h1 | h1
      · exfalso
        rcases List.mem_append.1 h1 with h2 | h2
        · have := preamble_filter cfg c Event.isEmit (fun _ _ => rfl) (fun _ _ => rfl)
          rw [List.filter_eq_nil_iff] at this
          exact this _ h2 rfl
        · unfold delegateEvents at h2
          simp only [List.cons_append, List.nil_append, List.mem_cons, reduceCtorEq,
            false_or] at h2
          split at h2
          · simp at h2
          · split at h2 <;> simp at h2
      · exact h1
    obtain ⟨level, h1, h2, h3, _⟩ := logEvents_emit _ _ _ _ _ _ _ _ hmem2
    have hfs : statusIndex (delegate env c []).1.status = (i : Int) := hidx
    rw [hfs] at h1 h3
    rw [dispatch_level _ _ h2]
    exact ⟨eL ▸ h1, eM ▸ h3⟩

/-- With the single level `WarnLevel` configured, class index 2 resolves to it. -/
theorem clamped_selection_witness :
    oneLevelCfg.Levels ≠ [] ∧ oneLevelCfg.Messages ≠ [] ∧
    selectLevel oneLevelCfg ((2 : Nat) : Int) = some WarnLevel :=
  ⟨by decide, by decide,
    (clamped_selection oneLevelCfg 2 (by decide) (by decide)).2.2.1 WarnLevel rfl⟩

/-- C3, as stated, fails at the empty list: with an empty `Levels` (a list of fewer than 3
entries) the clamped index is `len - 1 = -1`, the level lookup is out of range and the handler
panics; with an empty `Messages` and a selected level that is logged the message lookup is out
of range in the same way. -/
theorem empty_list_index_out_of_range :
    clampIndex (statusIndex 200) noLevelsCfg.Levels.length = -1 ∧
    selectLevel noLevelsCfg (statusIndex 200) = none ∧
    (New noLevelsCfg okEnv ordersReq).out = .panicked ∧
    clampIndex (statusIndex 200) noMessagesCfg.Messages.length = -1 ∧
    selectMessage noMessagesCfg (statusIndex 200) = none ∧
    (New noMessagesCfg okEnv ordersReq).out = .panicked := by
  refine ⟨by decide, by decide, ?_, by decide, by decide, ?_⟩
  · rw [New_of_not_shortCircuited _ _ _ (not_shortCircuited_of_none _ _ rfl (by decide))]
    decide
  · rw [New_of_not_shortCircuited _ _ _ (not_shortCircuited_of_none _ _ rfl (by decide))]
    decide

/-- C3, amended: for every configuration whose `Levels` and `Messages` are non-empty (so also
with 1 or 2 entries) and every final status `s`, both lookups are in range, at the class index
bounded by the last position of their own list; an index at or past the length of a list is
clamped to the last element of that list; and no run of the handler on a request that is not
short-circuited ends in an index out of range. -/
theorem lookups_clamped_in_range (cfg : Config) (s : Int) (hL : cfg.Levels ≠ [])
    (hM : cfg.Messages ≠ []) :
    (∃ hl : min (statusIndex s).toNat (cfg.Levels.length - 1) < cfg.Levels.length,
      selectLevel cfg (statusIndex s)
        = some (cfg.Levels.get ⟨min (statusIndex s).toNat (cfg.Levels.length - 1), hl⟩)) ∧
    (∃ hm : min (statusIndex s).toNat (cfg.Messages.length - 1) < cfg.Messages.length,
      selectMessage cfg (statusIndex s)
        = some (cfg.Messages.get ⟨min (statusIndex s).toNat (cfg.Messages.length - 1), hm⟩)) ∧
    ((cfg.Levels.length : Int) ≤ statusIndex s →
      selectLevel cfg (statusIndex s) = some (cfg.Levels.getLast hL)) ∧
    ((cfg.Messages.length : Int) ≤ statusIndex s →
      selectMessage cfg (statusIndex s) = some (cfg.Messages.getLast hM)) ∧
    (∀ env c, ¬ shortCircuited cfg c → (New cfg env c).out ≠ .panicked) := by
  obtain ⟨i, _, hi⟩ := statusIndex_eq_natCast s
  have hlenL : 0 < cfg.Levels.length := List.length_pos.2 hL
  have hlenM : 0 < cfg.Messages.length := List.length_pos.2 hM
  have hto : (statusIndex s).toNat = i := by rw [hi]; exact Int.toNat_ofNat i
  have eL : selectLevel cfg (statusIndex s) = cfg.Levels[min i (cfg.Levels.length - 1)]? := by
    unfold selectLevel
    simp only
    rw [hi, sliceAt_clampIndex _ _ hL]
  have eM : selectMessage cfg (statusIndex s)
      = cfg.Messages[min i (cfg.Messages.length - 1)]? := by
    unfold selectMessage
    simp only
    rw [hi, sliceAt_clampIndex _ _ hM]
  rw [hto]
  have hl : min i (cfg.Levels.length - 1) < cfg.Levels.length := by omega
  have hm : min i (cfg.Messages.length - 1) < cfg.Messages.length := by omega
  refine ⟨⟨hl, ?_⟩, ⟨hm, ?_⟩, ?_, ?_, ?_⟩
  · rw [eL]; exact List.getElem?_eq_getElem hl
  · rw [eM]; exact List.getElem?_eq_getElem hm
  · intro hle
    rw [eL]
    exact getElem?_clamp_last _ _ hL (by omega)
  · intro hle
    rw [eM]
    exact getElem?_clamp_last _ _ hM (by omega)
  · intro env c hsc
    obtain ⟨level, _, hout⟩ := New_out_of_nonempty cfg env c hsc hL hM
    rw [hout, recordOut_eq]
    split
    · exact fun hc => Outcome.noConfusion hc
    · split
      · exact fun hc => Outcome.noConfusion hc
      · exact fun hc => Outcome.noConfusion hc

/-- With the single level `WarnLevel` and the single message `request`, a request ending with
status 200 (class index 2) gets that level and that message, and the run does not end in an
index out of range. -/
theorem lookups_clamped_in_range_witness :
    oneLevelCfg.Levels ≠ [] ∧ oneLevelCfg.Messages ≠ [] ∧
    selectLevel oneLevelCfg (statusIndex 200) = some WarnLevel ∧
    selectMessage oneLevelCfg (statusIndex 200) = some "request" :=
  ⟨by decide, by decide,
    (lookups_clamped_in_range oneLevelCfg 200 (by decide) (by decide)).2.2.1 (by decide),
    (lookups_clamped_in_range oneLevelCfg 200 (by decide) (by decide)).2.2.2.1 (by decide)⟩

/-- C4: when the bypass predicate is configured and true for the request, or the request path
is an entry of the skip list, the handler calls the next handler exactly once, on the unchanged
context, and returns what it returns, with the context it leaves; it sets no header and no
status, calls neither the error handler nor the logger builder and emits no record; the bypass
predicate is evaluated first, and the skip list is consulted only when the predicate is absent
or false. -/
theorem short_circuit_pass_through (cfg : Config) (env : Env) (c : Ctx)
    (h : shortCircuited cfg c) :
    (New cfg env c).out = .returned (env.next c).2 ∧
    (New cfg env c).ctx = (env.next c).1 ∧
    (New cfg env c).trace.filter Event.isNext = [.next c] ∧
    (New cfg env c).trace.countP
      (fun e => e.isSet || e.isErrorHandler || e.isSendStatus || e.isLogger || e.isEmit) = 0 ∧
    (New cfg env c).trace =
      (match cfg.Next with
       | some p =>
         if p c then [.evalNext c true, .next c]
         else [.evalNext c false, .skipLookup c.path true, .next c]
       | none => [.skipLookup c.path true, .next c]) := by
  have hs : ∀ p, cfg.Next = some p → p c = false → mkSkipURIs cfg.SkipURIs c.path = true := by
    intro p hp hpc
    rcases h with ⟨q, hq, hqc⟩ | hm
    · rw [hp] at hq; cases hq; rw [hpc] at hqc; cases hqc
    · exact (mkSkipURIs_eq_true_iff _ _).2 hm
  rw [New_of_shortCircuited cfg env c h]
  unfold passThrough preamble
  simp only
  cases hN : cfg.Next with
  | some p =>
    by_cases hpc : p c = true
    · simp [hpc, List.filter_cons, Event.isNext, Event.isSet, Event.isErrorHandler,
        Event.isSendStatus, Event.isLogger, Event.isEmit]
    · have hpc2 : p c = false := by simpa using hpc
      simp [hpc2, hs p hN hpc2, List.filter_cons, Event.isNext, Event.isSet,
        Event.isErrorHandler, Event.isSendStatus, Event.isLogger, Event.isEmit]
  | none =>
    have hm : mkSkipURIs cfg.SkipURIs c.path = true := by
      rcases h with ⟨q, hq, _⟩ | hm
      · rw [hN] at hq; cases hq
      · exact (mkSkipURIs_eq_true_iff _ _).2 hm
    simp [hm, List.filter_cons, Event.isNext, Event.isSet, Event.isErrorHandler,
      Event.isSendStatus, Event.isLogger, Event.isEmit]

/-- A skipped `/health` request and a bypassed `/metrics` request: one call of the next handler, its result returned, the predicate evaluated first. -/
theorem short_circuit_pass_through_witness :
    shortCircuited defaultCfg healthReq ∧
    (New defaultCfg okEnv healthReq).out = .returned none ∧
    (New defaultCfg okEnv healthReq).trace = [.skipLookup "/health" true, .next healthReq] ∧
    shortCircuited oneLevelCfg metricsReq ∧
    (New oneLevelCfg failingEnv metricsReq).out = .returned (some "boom") ∧
    (New oneLevelCfg failingEnv metricsReq).trace
      = [.evalNext metricsReq true, .next metricsReq] :=
  ⟨Or.inr (by decide),
    (short_circuit_pass_through defaultCfg okEnv healthReq (Or.inr (by decide))).1,
    (short_circuit_pass_through defaultCfg okEnv healthReq (Or.inr (by decide))).2.2.2.2,
    Or.inl ⟨_, rfl, by decide⟩,
    (short_circuit_pass_through oneLevelCfg failingEnv metricsReq
      (Or.inl ⟨_, rfl, by decide⟩)).1,
    (short_circuit_pass_through oneLevelCfg failingEnv metricsReq
      (Or.inl ⟨_, rfl, by decide⟩)).2.2.2.2⟩

/-- C5, as stated, fails at the fatal and the panic level: for an `/orders` request whose next
handler and error handler both fail (final status 500), with the first level `FatalLevel` the
record is written and the sink ends the process; with the level `PanicLevel` the sink panics; in
neither run does the handler return nil. -/
theorem fatal_or_panic_level_no_nil_return :
    ¬ shortCircuited fatalCfg ordersReq ∧
    selectLevel fatalCfg (statusIndex (finalStatus failingEnv ordersReq)) = some FatalLevel ∧
    (New fatalCfg failingEnv ordersReq).out = .exited ∧
    (New fatalCfg failingEnv ordersReq).out ≠ .returned none ∧
    ¬ shortCircuited panicCfg ordersReq ∧
    (New panicCfg failingEnv ordersReq).out = .sinkPanicked ∧
    (New panicCfg failingEnv ordersReq).out ≠ .returned none := by
  have h1 : ¬ shortCircuited fatalCfg ordersReq :=
    not_shortCircuited_of_none _ _ rfl (by decide)
  have h2 : ¬ shortCircuited panicCfg ordersReq :=
    not_shortCircuited_of_none _ _ rfl (by decide)
  refine ⟨h1, by decide, ?_, ?_, h2, ?_, ?_⟩
  · rw [New_of_not_shortCircuited _ _ _ h1]; decide
  · rw [New_of_not_shortCircuited _ _ _ h1]; decide
  · rw [New_of_not_shortCircuited _ _ _ h2]; decide
  · rw [New_of_not_shortCircuited _ _ _ h2]; decide

/-- C5, amended: for a request that is neither bypassed nor skipped, under a configuration with
non-empty lists, the handler never returns an error, whatever the next handler and the error
handler returned: it returns nil when the selected level is neither `FatalLevel` nor
`PanicLevel`; at `FatalLevel` the sink ends the process and at `PanicLevel` the sink panics,
each after the record is written. -/
theorem chain_error_not_propagated (cfg : Config) (env : Env) (c : Ctx)
    (h : ¬ shortCircuited cfg c) (hL : cfg.Levels ≠ []) (hM : cfg.Messages ≠ []) :
    ∃ level, selectLevel cfg (statusIndex (finalStatus env c)) = some level ∧
      (New cfg env c).out
        = (if level = FatalLevel then .exited
           else if level = PanicLevel then .sinkPanicked
           else .returned none) ∧
      (∀ e, (New cfg env c).out ≠ .returned (some e)) := by
  obtain ⟨level, hl, hout⟩ := New_out_of_nonempty cfg env c h hL hM
  refine ⟨level, hl, ?_, ?_⟩
  · rw [hout, recordOut_eq]
  · intro e
    rw [hout, recordOut_eq]
    split
    · exact fun hc => Outcome.noConfusion hc
    · split
      · exact fun hc => Outcome.noConfusion hc
      · intro hc
        cases hc

/-- An `/orders` request whose next handler and error handler both fail, under the default
lists: the selected level is `ErrorLevel` and the handler returns nil. -/
theorem chain_error_not_propagated_witness :
    ¬ shortCircuited defaultCfg ordersReq ∧ defaultCfg.Levels ≠ [] ∧
    defaultCfg.Messages ≠ [] ∧
    (New defaultCfg failingEnv ordersReq).out = .returned none := by
  refine ⟨ordersReq_not_shortCircuited, by decide, by decide, ?_⟩
  obtain ⟨level, hl, hout, _⟩ := chain_error_not_propagated defaultCfg failingEnv ordersReq
    ordersReq_not_shortCircuited (by decide) (by decide)
  have h2 : selectLevel defaultCfg (statusIndex (finalStatus failingEnv ordersReq))
      = some ErrorLevel := by decide
  rw [h2] at hl
  have h3 : level = ErrorLevel := (Option.some.inj hl).symm
  rw [hout, h3]
  decide

/-- C6: for a request that is not short-circuited, under a configuration with non-empty lists,
the records emitted are: exactly one, through the method whose level is the selected level and
with the selected message, when the selected level is one of the seven levels (trace, debug,
info, warn, error, fatal, panic); none for `NoLevel`, `Disabled` and every other value, and
then the handler returns nil. -/
theorem emission_total_mapping (cfg : Config) (env : Env) (c : Ctx)
    (h : ¬ shortCircuited cfg c) (hL : cfg.Levels ≠ []) (hM : cfg.Messages ≠ []) :
    ∃ level message,
      selectLevel cfg (statusIndex (finalStatus env c)) = some level ∧
      selectMessage cfg (statusIndex (finalStatus env c)) = some message ∧
      (New cfg env c).trace.filter Event.isEmit =
        (match dispatch level with
         | some m => [.emit m (New cfg env c).ctx.userContext env.uuid message]
         | none => []) ∧
      (∀ m, dispatch level = some m → m.level = level) ∧
      ((∃ m, dispatch level = some m) ↔
        (level = TraceLevel ∨ level = DebugLevel ∨ level = InfoLevel ∨ level = WarnLevel ∨
          level = ErrorLevel ∨ level = FatalLevel ∨ level = PanicLevel)) ∧
      (dispatch level = none →
        (New cfg env c).trace.countP Event.isEmit = 0 ∧
        (New cfg env c).out = .returned none) := by
  obtain ⟨level, hl⟩ := selectLevel_isSome cfg (finalStatus env c) hL
  obtain ⟨message, hm⟩ := selectMessage_isSome cfg (finalStatus env c) hM
  have key : (New cfg env c).trace.filter Event.isEmit =
      (match dispatch level with
       | some m => [.emit m (New cfg env c).ctx.userContext env.uuid message]
       | none => []) := by
    rw [New_of_selected cfg env c level message h hl hm]
    simp only
    rw [List.filter_append, List.filter_append,
      preamble_filter cfg c _ (fun _ _ => rfl) (fun _ _ => rfl),
      delegateEvents_filter_emit env c _ (fun _ _ => rfl) (fun _ => rfl) (fun _ _ => rfl)
        (fun _ => rfl)]
    unfold recordEvents
    by_cases hs : level = NoLevel ∨ level = Disabled
    · have hd : dispatch level = none := by
        rcases hs with hs | hs <;> subst hs <;> decide
      simp [hs, hd]
    · simp only [hs, if_false]
      cases hd : dispatch level <;> simp [List.filter_cons, Event.isEmit]
  refine ⟨level, message, hl, hm, key, dispatch_level level, dispatch_isSome_iff level, ?_⟩
  intro hd
  refine ⟨?_, ?_⟩
  · rw [List.countP_eq_length_filter, key, hd]
    rfl
  · rw [New_of_selected cfg env c level message h hl hm]
    exact recordOut_of_dispatch_none level hd

/-- A successful `/orders` request under the default lists emits one record, by `Info` and
with the message `Success`; under the single level `Disabled` it emits none and the handler
returns nil. -/
theorem emission_total_mapping_witness :
    ¬ shortCircuited defaultCfg ordersReq ∧
    (New defaultCfg okEnv ordersReq).trace.filter Event.isEmit
      = [.emit .Info 0 7 "Success"] ∧
    ¬ shortCircuited disabledCfg ordersReq ∧
    (New disabledCfg okEnv ordersReq).trace.countP Event.isEmit = 0 ∧
    (New disabledCfg okEnv ordersReq).out = .returned none := by
  have hd : ¬ shortCircuited disabledCfg ordersReq :=
    not_shortCircuited_of_none _ _ rfl (by decide)
  refine ⟨ordersReq_not_shortCircuited, ?_, hd, ?_⟩
  · obtain ⟨level, message, hl, hm, hemit, _, _, _⟩ := emission_total_mapping defaultCfg okEnv
      ordersReq ordersReq_not_shortCircuited (by decide) (by decide)
    have h2 : selectLevel defaultCfg (statusIndex (finalStatus okEnv ordersReq))
        = some InfoLevel := by decide
    have h3 : selectMessage defaultCfg (statusIndex (finalStatus okEnv ordersReq))
        = some "Success" := by decide
    rw [h2] at hl
    rw [h3] at hm
    have h4 : level = InfoLevel := (Option.some.inj hl).symm
    have h5 : message = "Success" := (Option.some.inj hm).symm
    rw [hemit, h4, h5, New_ctx_of_not_shortCircuited _ _ _ ordersReq_not_shortCircuited]
    rfl
  · obtain ⟨level, message, hl, _, _, _, _, hnone⟩ := emission_total_mapping disabledCfg okEnv
      ordersReq hd (by decide) (by decide)
    have h2 : selectLevel disabledCfg (statusIndex (finalStatus okEnv ordersReq))
        = some Disabled := by decide
    rw [h2] at hl
    have h4 : level = Disabled := (Option.some.inj hl).symm
    exact hnone (by rw [h4]; decide)

/-- C7: for a request that is not short-circuited the handler sets the response header
`errorTraceID` to the string form of the generated identifier exactly once, immediately before
its single call of the next handler, which runs on a context carrying that header; this holds
whatever level is selected and whether or not a record is emitted; every record emitted carries
the same identifier in its `errorTraceId` field. -/
theorem trace_header_set_before_next (cfg : Config) (env : Env) (c : Ctx)
    (h : ¬ shortCircuited cfg c) :
    (∃ t0 t1, (New cfg env c).trace
        = t0 ++ [.set "errorTraceID" (env.uuidString env.uuid), .next (withTraceHeader env c)]
            ++ t1 ∧
      (t0 ++ t1).countP (fun e => e.isSet || e.isNext) = 0) ∧
    (withTraceHeader env c).headers.lookup "errorTraceID" = some (env.uuidString env.uuid) ∧
    (∀ m ctx id message, Event.emit m ctx id message ∈ (New cfg env c).trace →
      id = env.uuid) := by
  rw [New_trace_of_not_shortCircuited cfg env c h]
  refine ⟨?_, ?_, ?_⟩
  · refine ⟨preamble cfg c,
      (delegateEvents env c).drop 2
        ++ logEvents cfg env (delegate env c []).1 (env.next (withTraceHeader env c)).2, ?_, ?_⟩
    · have : delegateEvents env c
          = [.set "errorTraceID" (env.uuidString env.uuid), .next (withTraceHeader env c)]
              ++ (delegateEvents env c).drop 2 := by
        unfold delegateEvents
        simp
      conv_lhs => rw [this]
      simp only [List.append_assoc]
    · rw [List.countP_eq_length_filter, List.filter_append, List.filter_append,
        preamble_filter cfg c _ (fun _ _ => rfl) (fun _ _ => rfl),
        logEvents_filter cfg env _ _ _ (fun _ _ _ => rfl) (fun _ _ _ _ => rfl)]
      unfold delegateEvents
      simp only
      split
      · simp
      · split <;> simp [List.filter_cons, Event.isSet, Event.isNext]
  · simp [withTraceHeader, Ctx.Set, List.lookup]
  · intro m ctx id message hmem
    have hmem2 : Event.emit m ctx id message
        ∈ logEvents cfg env (delegate env c []).1 (env.next (withTraceHeader env c)).2 := by
      rcases List.mem_append.1 hmem with h1 | h1
      · exfalso
        rcases List.mem_append.1 h1 with h2 | h2
        · have := preamble_filter cfg c Event.isEmit (fun _ _ => rfl) (fun _ _ => rfl)
          rw [List.filter_eq_nil_iff] at this
          exact this _ h2 rfl
        · have := delegateEvents_filter_emit env c Event.isEmit (fun _ _ => rfl)
            (fun _ => rfl) (fun _ _ => rfl) (fun _ => rfl)
          rw [List.filter_eq_nil_iff] at this
          exact this _ h2 rfl
      · exact h1
    obtain ⟨_, _, _, _, hid⟩ := logEvents_emit _ _ _ _ _ _ _ _ hmem2
    exact hid

/-- An `/orders` request under the default configuration: the next handler sees the header. -/
theorem trace_header_set_before_next_witness :
    ¬ shortCircuited defaultCfg ordersReq ∧
    (withTraceHeader okEnv ordersReq).headers.lookup "errorTraceID"
      = some "00000000-0000-4000-8000-000000000007" :=
  ⟨ordersReq_not_shortCircuited,
    (trace_header_set_before_next defaultCfg okEnv ordersReq
      ordersReq_not_shortCircuited).2.1⟩

/-- C8: for a request that is not short-circuited, the calls of the centralized error handler
are: none when the next handler returned nil, and exactly one, with the error the next handler
returned and the context it left, when it returned an error; when the next handler returned nil
the handler sets no status and leaves the context, the response status included, as the next
handler left it. -/
theorem error_handler_iff_chain_error (cfg : Config) (env : Env) (c : Ctx)
    (h : ¬ shortCircuited cfg c) :
    (New cfg env c).trace.filter Event.isErrorHandler =
      (match (env.next (withTraceHeader env c)).2 with
       | none => []
       | some e => [.errorHandler (env.next (withTraceHeader env c)).1 e]) ∧
    ((New cfg env c).trace.countP Event.isErrorHandler = 1 ↔
      (env.next (withTraceHeader env c)).2 ≠ none) ∧
    ((env.next (withTraceHeader env c)).2 = none →
      (New cfg env c).trace.countP Event.isSendStatus = 0 ∧
      (New cfg env c).ctx = (env.next (withTraceHeader env c)).1) := by
  have key : (New cfg env c).trace.filter Event.isErrorHandler =
      (match (env.next (withTraceHeader env c)).2 with
       | none => []
       | some e => [.errorHandler (env.next (withTraceHeader env c)).1 e]) := by
    rw [New_trace_of_not_shortCircuited cfg env c h, List.filter_append, List.filter_append,
      preamble_filter cfg c _ (fun _ _ => rfl) (fun _ _ => rfl),
      logEvents_filter cfg env _ _ _ (fun _ _ _ => rfl) (fun _ _ _ _ => rfl)]
    unfold delegateEvents
    simp only
    split
    · simp [List.filter_cons, Event.isErrorHandler]
    · split <;> simp [List.filter_cons, Event.isErrorHandler]
  refine ⟨key, ?_, ?_⟩
  · rw [List.countP_eq_length_filter, key]
    cases (env.next (withTraceHeader env c)).2 <;> simp
  · intro hn
    refine ⟨?_, ?_⟩
    · rw [List.countP_eq_length_filter, New_trace_of_not_shortCircuited cfg env c h,
        List.filter_append, List.filter_append,
        preamble_filter cfg c _ (fun _ _ => rfl) (fun _ _ => rfl),
        logEvents_filter cfg env _ _ _ (fun _ _ _ => rfl) (fun _ _ _ _ => rfl)]
      unfold delegateEvents
      simp only [hn]
      simp [List.filter_cons, Event.isSendStatus]
    · rw [New_ctx_of_not_shortCircuited cfg env c h, delegate_ctx_of_nil env c hn]

/-- An `/orders` request whose next handler fails: one call of the error handler, with that error. -/
theorem error_handler_iff_chain_error_witness :
    ¬ shortCircuited defaultCfg ordersReq ∧
    (New defaultCfg failingEnv ordersReq).trace.filter Event.isErrorHandler
      = [.errorHandler (withTraceHeader failingEnv ordersReq) "boom"] :=
  ⟨ordersReq_not_shortCircuited,
    (error_handler_iff_chain_error defaultCfg failingEnv ordersReq
      ordersReq_not_shortCircuited).1⟩

/-- C9: for a request that is not short-circuited, when the next handler returns an error and
the centralized error handler returns an error too, the handler sets the response status to 500
(its only status call), the status it classifies is 500, the class index is 0, and with
non-empty lists the level and message looked up are the first entries of `Levels` and
`Messages`; in every run of the handler, a status it sets is 500. -/
theorem secondary_failure_forces_500 (cfg : Config) (env : Env) (c : Ctx) (e e2 : Err)
    (h : ¬ shortCircuited cfg c)
    (hn : (env.next (withTraceHeader env c)).2 = some e)
    (he : (env.errorHandler (env.next (withTraceHeader env c)).1 e).2 = some e2)
    (hL : cfg.Levels ≠ []) (hM : cfg.Messages ≠ []) :
    (New cfg env c).trace.filter Event.isSendStatus = [.sendStatus 500] ∧
    (New cfg env c).ctx.status = 500 ∧
    finalStatus env c = 500 ∧
    statusIndex (finalStatus env c) = 0 ∧
    selectLevel cfg (statusIndex (finalStatus env c)) = some (cfg.Levels.head hL) ∧
    selectMessage cfg (statusIndex (finalStatus env c)) = some (cfg.Messages.head hM) ∧
    (∀ cfg2 env2 c2 code, Event.sendStatus code ∈ (New cfg2 env2 c2).trace → code = 500) := by
  have hst : finalStatus env c = 500 := delegate_status_of_failure env c e e2 hn he
  have hidx : statusIndex (finalStatus env c) = ((0 : Nat) : Int) := by
    rw [hst]; decide
  refine ⟨?_, ?_, hst, by rw [hst]; decide, ?_, ?_, ?_⟩
  · rw [New_trace_of_not_shortCircuited cfg env c h, List.filter_append, List.filter_append,
      preamble_filter cfg c _ (fun _ _ => rfl) (fun _ _ => rfl),
      logEvents_filter cfg env _ _ _ (fun _ _ _ => rfl) (fun _ _ _ _ => rfl)]
    unfold delegateEvents
    simp only [hn, he]
    simp [List.filter_cons, Event.isSendStatus, StatusInternalServerError]
  · rw [New_ctx_of_not_shortCircuited cfg env c h]
    exact hst
  · unfold selectLevel
    simp only
    rw [hidx, sliceAt_clampIndex _ _ hL]
    exact getElem?_min_zero _ hL
  · unfold selectMessage
    simp only
    rw [hidx, sliceAt_clampIndex _ _ hM]
    exact getElem?_min_zero _ hM
  · intro cfg2 env2 c2 code hmem
    exact sendStatus_mem_New cfg2 env2 c2 code hmem

/-- An `/orders` request whose next handler and error handler both fail: status 500, first level and first message. -/
theorem secondary_failure_forces_500_witness :
    ¬ shortCircuited defaultCfg ordersReq ∧
    (New defaultCfg failingEnv ordersReq).ctx.status = 500 ∧
    selectLevel defaultCfg (statusIndex (finalStatus failingEnv ordersReq)) = some ErrorLevel ∧
    selectMessage defaultCfg (statusIndex (finalStatus failingEnv ordersReq))
      = some "Server error" :=
  ⟨ordersReq_not_shortCircuited,
    (secondary_failure_forces_500 defaultCfg failingEnv ordersReq "boom" "no translation"
      ordersReq_not_shortCircuited rfl rfl (by decide) (by decide)).2.1,
    (secondary_failure_forces_500 defaultCfg failingEnv ordersReq "boom" "no translation"
      ordersReq_not_shortCircuited rfl rfl (by decide) (by decide)).2.2.2.2.1,
    (secondary_failure_forces_500 defaultCfg failingEnv ordersReq "boom" "no translation"
      ordersReq_not_shortCircuited rfl rfl (by decide) (by decide)).2.2.2.2.2.1⟩

/-- C10: for a request that is not short-circuited, under a configuration with non-empty lists,
the calls of the logger builder are: none when the selected level is `NoLevel` or `Disabled`,
and otherwise exactly one, with the final context, the measured latency and the error the next
handler returned (nil when it returned none), which is not the error of the centralized error
handler. -/
theorem logger_builder_call (cfg : Config) (env : Env) (c : Ctx)
    (h : ¬ shortCircuited cfg c) (hL : cfg.Levels ≠ []) (hM : cfg.Messages ≠ []) :
    ∃ level,
      selectLevel cfg (statusIndex (finalStatus env c)) = some level ∧
      (New cfg env c).trace.filter Event.isLogger =
        (if level = NoLevel ∨ level = Disabled then []
         else [.logger (New cfg env c).ctx (env.stop - env.start)
                 (env.next (withTraceHeader env c)).2]) := by
  obtain ⟨level, hl⟩ := selectLevel_isSome cfg (finalStatus env c) hL
  obtain ⟨message, hm⟩ := selectMessage_isSome cfg (finalStatus env c) hM
  refine ⟨level, hl, ?_⟩
  rw [New_of_selected cfg env c level message h hl hm]
  simp only
  rw [List.filter_append, List.filter_append,
    preamble_filter cfg c _ (fun _ _ => rfl) (fun _ _ => rfl),
    delegateEvents_filter_emit env c _ (fun _ _ => rfl) (fun _ => rfl) (fun _ _ => rfl)
      (fun _ => rfl)]
  unfold recordEvents
  by_cases hs : level = NoLevel ∨ level = Disabled
  · simp [hs]
  · simp only [hs, if_false]
    cases hd : dispatch level <;> simp [List.filter_cons, Event.isLogger]

/-- An `/orders` request whose next handler fails with `boom` and whose error handler fails
too: under the default lists the builder is called once, with `boom`; under the single level
`Disabled` it is not called. -/
theorem logger_builder_call_witness :
    ¬ shortCircuited defaultCfg ordersReq ∧
    (New defaultCfg failingEnv ordersReq).trace.filter Event.isLogger
      = [.logger (New defaultCfg failingEnv ordersReq).ctx 5 (some "boom")] ∧
    ¬ shortCircuited disabledCfg ordersReq ∧
    (New disabledCfg failingEnv ordersReq).trace.filter Event.isLogger = [] := by
  have hd : ¬ shortCircuited disabledCfg ordersReq :=
    not_shortCircuited_of_none _ _ rfl (by decide)
  refine ⟨ordersReq_not_shortCircuited, ?_, hd, ?_⟩
  · obtain ⟨level, hl, hlog⟩ := logger_builder_call defaultCfg failingEnv ordersReq
      ordersReq_not_shortCircuited (by decide) (by decide)
    have h2 : selectLevel defaultCfg (statusIndex (finalStatus failingEnv ordersReq))
        = some ErrorLevel := by decide
    rw [h2] at hl
    have h4 : level = ErrorLevel := (Option.some.inj hl).symm
    rw [hlog, h4]
    rfl
  · obtain ⟨level, hl, hlog⟩ := logger_builder_call disabledCfg failingEnv ordersReq hd
      (by decide) (by decide)
    have h2 : selectLevel disabledCfg (statusIndex (finalStatus failingEnv ordersReq))
        = some Disabled := by decide
    rw [h2] at hl
    have h4 : level = Disabled := (Option.some.inj hl).symm
    rw [hlog, h4]
    rfl

end Fiberzerolog
